import Mathlib

/-!
Verification of the LSTM-autoencoder anomaly-detection core of the
cyber-threat-detector-logs repository: a shallow embedding of the label
alignment and sequence windowing (feature_extractor.py / train.py), the
threshold selection scan (train.py), the sigmoid anomaly-score
normalization and threat-level bands (lstm_autoencoder.py /
model_inference.py), the single-log analysis result paths
(model_inference.py), and the fitted selector/scaler state machine used
by prepare_for_training (feature_extractor.py).
-/

namespace CTD

/-- Spec §4.2 alignment contract: drop the first `length - 1` labels so
that the label of aligned position `i` is the label of the last record of
window `i`. -/
def alignLabels (labels : List ℤ) (length : ℕ) : List ℤ :=
  labels.drop (length - 1)

/-- Embedding of the label adjustment done by
`CybersecurityTrainingPipeline.extract_features` (train.py line 134):
`y_seq = y[49:]`, hard-coded to the pipeline sequence length 50. -/
def trainAlignLabels (labels : List ℤ) : List ℤ :=
  labels.drop 49

/-- Embedding of `CybersecurityFeatureExtractor.create_sequences`
(feature_extractor.py lines 282-299).  `dim` plays the role of
`X.shape[1]`.  With fewer rows than `windowSize`, `windowSize - len(X)`
zero rows are stacked in front and a single sequence is returned;
otherwise every stride-1 window `X[i : i + windowSize]` for
`i in range(len(X) - windowSize + 1)` is emitted. -/
def createSequences (X : List (List ℚ)) (dim : ℕ) (windowSize : ℕ) :
    List (List (List ℚ)) :=
  if X.length < windowSize then
    [List.replicate (windowSize - X.length) (List.replicate dim (0 : ℚ)) ++ X]
  else
    (List.range (X.length - windowSize + 1)).map fun i => (X.drop i).take windowSize

/-- C1: the labels aligned to the sequences are `labels[L-1:]`; for the
pipeline value `L = 50` exactly the first 49 labels are dropped, the
aligned label array has the same length `N - 50 + 1` as the array of
sliding windows, aligned label `i` is the original label `i + 49`, and
record `i + 49` is precisely the last row of window `i`. -/
theorem c1_label_alignment (labels : List ℤ) (X : List (List ℚ)) (dim : ℕ)
    (hlen : labels.length = X.length) (hN : 50 ≤ X.length) :
    trainAlignLabels labels = alignLabels labels 50
    ∧ (trainAlignLabels labels).length = X.length - 50 + 1
    ∧ (trainAlignLabels labels).length = (createSequences X dim 50).length
    ∧ (∀ i : ℕ, (trainAlignLabels labels)[i]? = labels[i + 49]?)
    ∧ (∀ i : ℕ, i + 50 ≤ X.length →
        ((X.drop i).take 50).getLast? = X[i + 49]?) := by
  have hXN : ¬ X.length < 50 := by omega
  refine ⟨rfl, ?_, ?_, ?_, ?_⟩
  · simp [trainAlignLabels, hlen]
    omega
  · simp [trainAlignLabels, createSequences, hXN, hlen]
    omega
  · intro i
    simp [trainAlignLabels, Nat.add_comm]
  · intro i hi
    have hlen50 : ((X.drop i).take 50).length = 50 := by
      simp
      omega
    have hne : (X.drop i).take 50 ≠ [] := by
      intro h
      rw [h] at hlen50
      simp at hlen50
    rw [List.getLast?_eq_getElem? , hlen50]
    rw [List.getElem?_take, if_pos (by omega), List.getElem?_drop]

/-- Concrete check of `c1_label_alignment` at a stream of 51 labelled
records. -/
theorem c1_label_alignment_witness :
    (trainAlignLabels (List.range 51 |>.map Int.ofNat)).length
      = (List.replicate 51 [(0 : ℚ)]).length - 50 + 1 :=
  (c1_label_alignment (List.range 51 |>.map Int.ofNat)
      (List.replicate 51 [(0 : ℚ)]) 1 (by simp) (by simp)).2.1

/-- C3: sequence windowing.  Short inputs give exactly one front-padded
sequence; inputs with `L ≤ N` give `N - L + 1` stride-1 windows, window
`i` holding rows `i .. i + L - 1`; and every produced sequence has shape
`(L, dim)`. -/
theorem c3_sequence_windowing (X : List (List ℚ)) (dim L : ℕ)
    (hdim : ∀ r ∈ X, r.length = dim) (hL : 0 < L) :
    (X.length < L →
      createSequences X dim L
        = [List.replicate (L - X.length) (List.replicate dim (0 : ℚ)) ++ X])
    ∧ (L ≤ X.length →
      (createSequences X dim L).length = X.length - L + 1
      ∧ ∀ i : ℕ, i < X.length - L + 1 →
          (createSequences X dim L)[i]? = some ((X.drop i).take L)
          ∧ ∀ j : ℕ, j < L → ((X.drop i).take L)[j]? = X[i + j]?)
    ∧ (∀ s ∈ createSequences X dim L, s.length = L ∧ ∀ r ∈ s, r.length = dim) := by
  refine ⟨?_, ?_, ?_⟩
  · intro h
    simp [createSequences, h]
  · intro h
    have hnot : ¬ X.length < L := by omega
    constructor
    · simp [createSequences, hnot]
    · intro i hi
      constructor
      · simp [createSequences, hnot, hi]
      · intro j hj
        rw [List.getElem?_take, if_pos hj, List.getElem?_drop]
  · intro s hs
    by_cases h : X.length < L
    · simp only [createSequences, if_pos h, List.mem_singleton] at hs
      subst hs
      constructor
      · simp
        omega
      · intro r hr
        rcases List.mem_append.1 hr with h1 | h2
        · exact (List.eq_of_mem_replicate h1) ▸ List.length_replicate _ _
        · exact hdim r h2
    · simp only [createSequences, if_neg h, List.mem_map] at hs
      obtain ⟨i, hi, rfl⟩ := hs
      simp only [List.mem_range] at hi
      constructor
      · simp
        omega
      · intro r hr
        exact hdim r (List.mem_of_mem_drop (List.mem_of_mem_take hr))

/-- Concrete check of `c3_sequence_windowing`: a 2-row matrix windowed at
`L = 3` is front-padded to a single `(1, 3, 1)` sequence. -/
theorem c3_sequence_windowing_witness :
    createSequences [[(1 : ℚ)], [2]] 1 3 = [[[0], [1], [2]]] :=
  (c3_sequence_windowing [[(1 : ℚ)], [2]] 1 3 (by decide) (by decide)).1 (by decide)

/-- C8 counterexample: on an entirely empty input matrix (zero rows,
three columns) with window size 5, `create_sequences` does not fail: it
returns exactly one all-zero `(5, 3)` sequence. -/
theorem c8_counterexample :
    createSequences ([] : List (List ℚ)) 3 5
      = [List.replicate 5 (List.replicate 3 (0 : ℚ))]
    ∧ (createSequences ([] : List (List ℚ)) 3 5).length = 1 := by
  constructor
  · simp [createSequences]
  · simp [createSequences]

/-- C8 amended: an entirely empty input matrix is not an error;
`create_sequences` zero-pads it into exactly one all-zero sequence of
shape `(1, L, dim)`. -/
theorem c8_empty_input_padding (dim L : ℕ) (hL : 0 < L) :
    createSequences ([] : List (List ℚ)) dim L
      = [List.replicate L (List.replicate dim (0 : ℚ))]
    ∧ (createSequences ([] : List (List ℚ)) dim L).length = 1 := by
  constructor
  · simp [createSequences, hL]
  · simp [createSequences, hL]

/-- Concrete check of `c8_empty_input_padding` at `dim = 2`, `L = 4`. -/
theorem c8_empty_input_padding_witness :
    createSequences ([] : List (List ℚ)) 2 4
      = [List.replicate 4 (List.replicate 2 (0 : ℚ))] :=
  (c8_empty_input_padding 2 4 (by decide)).1

/-- sklearn binary `f1_score(y_true, y_pred) = 2·tp / (2·tp + fp + fn)`,
returning `0` when the denominator is `0` (the sklearn `zero_division`
default used by train.py). -/
@[irreducible] def f1Score (y pred : List Bool) : ℚ :=
  let pairs := y.zip pred
  let tp := (pairs.filter fun p => p.1 && p.2).length
  let fp := (pairs.filter fun p => !p.1 && p.2).length
  let fnm := (pairs.filter fun p => p.1 && !p.2).length
  if 2 * tp + fp + fnm = 0 then 0 else (2 * tp : ℚ) / (2 * tp + fp + fnm)

/-- `np.percentile(a, q)` with the default linear interpolation: on the
ascending sort of `a`, position `q/100 * (n-1)` is interpolated between
the two neighbouring order statistics. -/
@[irreducible] def npPercentile (a : List ℚ) (q : ℚ) : ℚ :=
  let s := List.insertionSort (· ≤ ·) a
  let pos := q / 100 * ((a.length : ℚ) - 1)
  let i := (⌊pos⌋).toNat
  let lo := s.getD i 0
  let hi := s.getD (i + 1) lo
  lo + (pos - (i : ℚ)) * (hi - lo)

/-- train.py line 248: `np.percentile(errors, np.arange(50, 99, 1))`, the
candidate thresholds at the 50th through 98th percentile in steps of 1. -/
@[irreducible] def candidateThresholds (errors : List ℚ) : List ℚ :=
  (List.range' 50 49).map fun q => npPercentile errors (q : ℚ)

/-- train.py line 253: `predictions = (reconstruction_errors > threshold)`. -/
@[irreducible] def thresholdPredictions (errors : List ℚ) (t : ℚ) : List Bool :=
  errors.map fun e => decide (t < e)

/-- F1 of the predictions at candidate threshold `t` against labels `y`. -/
@[irreducible] def candF1 (errors : List ℚ) (y : List Bool) (t : ℚ) : ℚ :=
  f1Score y (thresholdPredictions errors t)

/-- Embedding of `CybersecurityTrainingPipeline.find_optimal_threshold`
(train.py lines 248-263), as a function of the per-sample validation
reconstruction errors: `best_f1` starts at `0` and `best_threshold` at
`None`, and a candidate replaces the incumbent only on a strictly larger
F1.  Before returning, line 260 formats `best_threshold` with `:.6f` for
logging; when every candidate F1 is `0` the incumbent is still `None`
and that formatting raises a `TypeError`, so the function returns a
threshold only when some candidate strictly improved on the initial
`best_f1 = 0`, and raises otherwise. -/
@[irreducible] def findOptimalThreshold (errors : List ℚ) (y : List Bool) :
    Except String ℚ :=
  match ((candidateThresholds errors).foldl
      (fun best t =>
        if best.1 < candF1 errors y t then (candF1 errors y t, some t) else best)
      ((0 : ℚ), (none : Option ℚ))).2 with
  | some t => Except.ok t
  | none =>
      Except.error "TypeError: unsupported format string passed to NoneType.__format__"

/-- The largest F1 reached over the candidate thresholds (floored at the
loop's initial `best_f1 = 0`). -/
@[irreducible] def bestF1 (errors : List ℚ) (y : List Bool) : ℚ :=
  (candidateThresholds errors).foldl (fun m t => max m (candF1 errors y t)) 0

lemma le_foldl_max (f : ℚ → ℚ) (l : List ℚ) (b : ℚ) :
    b ≤ l.foldl (fun m t => max m (f t)) b := by
  induction l generalizing b with
  | nil => simp
  | cons t ts ih =>
    simp only [List.foldl_cons]
    exact le_trans (le_max_left _ _) (ih (max b (f t)))

lemma mem_le_foldl_max (f : ℚ → ℚ) (l : List ℚ) (b : ℚ) :
    ∀ t ∈ l, f t ≤ l.foldl (fun m t => max m (f t)) b := by
  induction l generalizing b with
  | nil => simp
  | cons u us ih =>
    intro t ht
    simp only [List.foldl_cons]
    rcases List.mem_cons.1 ht with rfl | hmem
    · exact le_trans (le_max_right _ _) (le_foldl_max f us (max b (f t)))
    · exact ih (max b (f u)) t hmem

lemma foldl_max_attained (f : ℚ → ℚ) (l : List ℚ) (b : ℚ) :
    l.foldl (fun m t => max m (f t)) b = b
      ∨ ∃ t ∈ l, l.foldl (fun m t => max m (f t)) b = f t := by
  induction l generalizing b with
  | nil => exact Or.inl rfl
  | cons u us ih =>
    simp only [List.foldl_cons]
    rcases ih (max b (f u)) with h | ⟨t, ht, hfold⟩
    · rcases max_choice b (f u) with hb | hu
      · exact Or.inl (h.trans hb)
      · exact Or.inr ⟨u, List.mem_cons_self u us, h.trans hu⟩
    · exact Or.inr ⟨t, List.mem_cons_of_mem u ht, hfold⟩

/-- The selection loop of `find_optimal_threshold` computes the running
maximum F1 and keeps the first candidate that strictly improved on the
initial incumbent. -/
lemma selectFold_spec (f : ℚ → ℚ) (l : List ℚ) (b : ℚ) (o : Option ℚ) :
    l.foldl (fun s t => if s.1 < f t then (f t, some t) else s) (b, o)
      = (l.foldl (fun m t => max m (f t)) b,
         if b < l.foldl (fun m t => max m (f t)) b
         then l.find? fun t => decide (f t = l.foldl (fun m t => max m (f t)) b)
         else o) := by
  induction l generalizing b o with
  | nil => simp
  | cons t ts ih =>
    simp only [List.foldl_cons]
    by_cases h : b < f t
    · rw [if_pos h, ih (f t) (some t)]
      have hmax : max b (f t) = f t := max_eq_right (le_of_lt h)
      simp only [hmax]
      set M := ts.foldl (fun m t => max m (f t)) (f t) with hMdef
      have hftM : f t ≤ M := le_foldl_max f ts (f t)
      have hbM : b < M := lt_of_lt_of_le h hftM
      rw [if_pos hbM]
      by_cases he : f t = M
      · rw [if_neg (by rw [he]; exact lt_irrefl M),
          List.find?_cons_of_pos _ (by simp [he])]
      · rw [if_pos (lt_of_le_of_ne hftM he),
          List.find?_cons_of_neg _ (by simp [he])]
    · rw [if_neg h, ih b o]
      have hmax : max b (f t) = b := max_eq_left (le_of_not_lt h)
      simp only [hmax]
      set M := ts.foldl (fun m t => max m (f t)) b with hMdef
      by_cases hb : b < M
      · rw [if_pos hb, if_pos hb,
          List.find?_cons_of_neg _ (by
            simp only [decide_eq_true_eq]
            intro he
            rw [he] at h
            exact h hb)]
      · rw [if_neg hb, if_neg hb]

/-- C2 amended: whenever some candidate reaches strictly positive F1,
`find_optimal_threshold` returns the first (lowest) candidate attaining
the maximum F1 over the 50th–98th-percentile candidates. -/
theorem c2_threshold_selection (errors : List ℚ) (y : List Bool)
    (hpos : ∃ t ∈ candidateThresholds errors, 0 < candF1 errors y t) :
    ∃ t, (candidateThresholds errors).find?
          (fun u => decide (candF1 errors y u = bestF1 errors y)) = some t
      ∧ findOptimalThreshold errors y = Except.ok t := by
  obtain ⟨t0, ht0, hf0⟩ := hpos
  have hM0 : 0 < bestF1 errors y := by
    unfold bestF1
    exact lt_of_lt_of_le hf0 (mem_le_foldl_max _ _ 0 t0 ht0)
  have h1 : ((candidateThresholds errors).foldl
      (fun best t =>
        if best.1 < candF1 errors y t then (candF1 errors y t, some t) else best)
      ((0 : ℚ), (none : Option ℚ))).2
      = (candidateThresholds errors).find?
          (fun u => decide (candF1 errors y u = bestF1 errors y)) := by
    rw [selectFold_spec (candF1 errors y) (candidateThresholds errors) 0 none]
    unfold bestF1 at hM0 ⊢
    dsimp only
    rw [if_pos hM0]
  have hsome : (((candidateThresholds errors).find?
      fun u => decide (candF1 errors y u = bestF1 errors y)).isSome) := by
    rw [List.find?_isSome]
    unfold bestF1 at hM0
    rcases foldl_max_attained (candF1 errors y) (candidateThresholds errors) 0 with
      h | ⟨t, ht, hfold⟩
    · rw [h] at hM0
      exact absurd hM0 (lt_irrefl 0)
    · refine ⟨t, ht, ?_⟩
      simp only [decide_eq_true_eq]
      unfold bestF1
      exact hfold.symm
  obtain ⟨t, ht⟩ := Option.isSome_iff_exists.mp hsome
  refine ⟨t, ht, ?_⟩
  unfold findOptimalThreshold
  rw [h1, ht]

set_option maxRecDepth 4096 in
set_option maxHeartbeats 1000000 in
/-- C2 counterexample: with validation errors `[0, 10]` and all-negative
validation labels every candidate threshold has F1 = 0, `best_threshold`
stays `None`, and the logging line that formats it with `:.6f` raises a
`TypeError` even though candidates exist — the scan does not return the
first (lowest) candidate attaining the maximum F1, as the claim would
require. -/
theorem c2_counterexample :
    findOptimalThreshold [0, 10] [false, false]
      = Except.error
          "TypeError: unsupported format string passed to NoneType.__format__"
    ∧ candidateThresholds [0, 10] ≠ [] := by
  constructor
  · have hfold : ((candidateThresholds [0, 10]).foldl
        (fun best t =>
          if best.1 < candF1 [0, 10] [false, false] t
          then (candF1 [0, 10] [false, false] t, some t) else best)
        ((0 : ℚ), (none : Option ℚ))).2 = none := by
      norm_num [candidateThresholds, npPercentile, candF1, f1Score,
        thresholdPredictions, List.range', List.insertionSort,
        List.orderedInsert]
    unfold findOptimalThreshold
    rw [hfold]
  · simp only [candidateThresholds, List.range', List.map]
    exact List.cons_ne_nil _ _

/-- Concrete check of `c2_threshold_selection`: errors `[0, 10]` with
labels `[false, true]` are perfectly separated at the 50th-percentile
candidate `5` (F1 = 1), which the scan returns. -/
theorem c2_threshold_selection_witness :
    findOptimalThreshold [0, 10] [false, true] = Except.ok 5 := by
  obtain ⟨t, hfind, hok⟩ := c2_threshold_selection [0, 10] [false, true]
    ⟨5,
      by norm_num [candidateThresholds, npPercentile, List.range',
        List.insertionSort, List.orderedInsert],
      by norm_num [candF1, f1Score, thresholdPredictions]⟩
  have h5 : (candidateThresholds [0, 10]).find?
      (fun u => decide (candF1 [0, 10] [false, true] u
        = bestF1 [0, 10] [false, true])) = some 5 := by
    norm_num [bestF1, candidateThresholds, npPercentile, candF1, f1Score,
      thresholdPredictions, List.range', List.insertionSort,
      List.orderedInsert, List.find?]
  rw [hfind] at h5
  rw [hok, Option.some.inj h5]

/-- `torch.sigmoid`. -/
noncomputable def sigmoid (x : ℝ) : ℝ := 1 / (1 + Real.exp (-x))

/-- Mean of a list of reals (`tensor.mean()`). -/
noncomputable def listMean (l : List ℝ) : ℝ := l.sum / l.length

/-- Embedding of `LSTMAutoencoder.get_anomaly_scores`
(lstm_autoencoder.py lines 247-252) as a function of the per-sample
reconstruction errors that `get_reconstruction_error` returns for the
batch: each error is divided by the batch's own mean error and passed
through the sigmoid. -/
noncomputable def getAnomalyScores (errors : List ℝ) : List ℝ :=
  errors.map fun e => sigmoid (e / listMean errors)

/-- Embedding of `ThreatDetectionEngine._classify_threat_level`
(model_inference.py lines 332-343). -/
noncomputable def classifyThreatLevel (s : ℝ) : String :=
  if 0.9 ≤ s then "critical"
  else if 0.7 ≤ s then "high"
  else if 0.5 ≤ s then "medium"
  else if 0.3 ≤ s then "low"
  else "normal"

/-- The result dictionary of `ThreatDetectionEngine.analyze_single_log`;
fields that the exception path omits are `Option`s. -/
structure AnalysisResult where
  isThreat : Bool
  threatLevel : String
  anomalyScore : ℝ
  reconstructionError : Option ℝ
  threshold : Option ℝ
  confidence : Option ℝ
  error : Option String

/-- Embedding of `ThreatDetectionEngine.analyze_single_log`
(model_inference.py lines 209-285), parameterized by the outcome of the
internal pipeline (feature extraction through
`get_reconstruction_error` on the single padded sequence): `.ok err` is
the success path with scalar reconstruction error `err`, whose anomaly
score is `get_anomaly_scores` of the one-sequence batch; `.error msg` is
the caught-exception path of lines 276-285. -/
noncomputable def analyzeSingleLog (pipeline : Except String ℝ) (thr : ℝ) :
    AnalysisResult :=
  match pipeline with
  | .ok err =>
      let score := (getAnomalyScores [err]).headI
      { isThreat := decide (thr < err)
        threatLevel := classifyThreatLevel score
        anomalyScore := score
        reconstructionError := some err
        threshold := some thr
        confidence := some (min score 1)
        error := none }
  | .error e =>
      { isThreat := false
        threatLevel := "error"
        anomalyScore := 0
        reconstructionError := none
        threshold := none
        confidence := none
        error := some e }

lemma sigmoid_pos (x : ℝ) : 0 < sigmoid x := by
  unfold sigmoid
  positivity

lemma sigmoid_lt_one (x : ℝ) : sigmoid x < 1 := by
  unfold sigmoid
  rw [div_lt_one (by positivity)]
  linarith [Real.exp_pos (-x)]

lemma sigmoid_one_bounds : (0.7 : ℝ) ≤ sigmoid 1 ∧ sigmoid 1 < 0.9 := by
  have he : (0 : ℝ) < Real.exp 1 := Real.exp_pos 1
  have h1 : (2.7182818283 : ℝ) < Real.exp 1 := Real.exp_one_gt_d9
  have h2 : Real.exp 1 < 2.7182818286 := Real.exp_one_lt_d9
  unfold sigmoid
  rw [Real.exp_neg]
  have hipos : 0 < (Real.exp 1)⁻¹ := inv_pos.mpr he
  have hiub : (Real.exp 1)⁻¹ < 1 / 2.7182818283 := by
    rw [inv_eq_one_div, div_lt_div_iff₀ he (by norm_num)]
    linarith
  have hilb : (1 : ℝ) / 2.7182818286 < (Real.exp 1)⁻¹ := by
    rw [inv_eq_one_div, div_lt_div_iff₀ (by norm_num) he]
    linarith
  constructor
  · rw [le_div_iff₀ (by positivity)]
    nlinarith
  · rw [div_lt_iff₀ (by positivity)]
    nlinarith

/-- C5: the anomaly scores are the per-sample errors normalized by the
batch's own mean error and passed through the sigmoid, and every score
lies in `[0, 1]`. -/
theorem c5_anomaly_scores_unit_interval (errors : List ℝ) :
    getAnomalyScores errors
      = (errors.map fun e => sigmoid (e / listMean errors))
    ∧ (getAnomalyScores errors).Forall fun s => 0 ≤ s ∧ s ≤ 1 := by
  refine ⟨rfl, ?_⟩
  rw [List.forall_iff_forall_mem]
  intro s hs
  simp only [getAnomalyScores, List.mem_map] at hs
  obtain ⟨e, _, rfl⟩ := hs
  exact ⟨le_of_lt (sigmoid_pos _), le_of_lt (sigmoid_lt_one _)⟩

/-- C4: for a batch of one sequence with strictly positive reconstruction
error, the batch-relative normalization degenerates — the anomaly score
is the constant `sigmoid 1`, and `analyze_single_log`'s success path
therefore always reports `anomaly_score = sigmoid 1` and
`threat_level = "high"`. -/
theorem c4_single_sequence_score (err thr : ℝ) (h : 0 < err) :
    getAnomalyScores [err] = [sigmoid 1]
    ∧ (analyzeSingleLog (Except.ok err) thr).anomalyScore = sigmoid 1
    ∧ (analyzeSingleLog (Except.ok err) thr).threatLevel = "high" := by
  have hmean : listMean [err] = err := by
    simp [listMean]
  have hone : err / listMean [err] = 1 := by
    rw [hmean]
    exact div_self (ne_of_gt h)
  have hsc : getAnomalyScores [err] = [sigmoid 1] := by
    simp only [getAnomalyScores, List.map_cons, List.map_nil, hone]
  have hclass : classifyThreatLevel (sigmoid 1) = "high" := by
    obtain ⟨hlo, hhi⟩ := sigmoid_one_bounds
    unfold classifyThreatLevel
    rw [if_neg (not_le.mpr hhi), if_pos hlo]
  refine ⟨hsc, ?_, ?_⟩
  · simp [analyzeSingleLog, hsc]
  · simp [analyzeSingleLog, hsc, hclass]

/-- Concrete check of `c4_single_sequence_score` at reconstruction error
`1` and threshold `0`. -/
theorem c4_single_sequence_score_witness :
    (analyzeSingleLog (Except.ok 1) 0).threatLevel = "high" :=
  (c4_single_sequence_score 1 0 (by norm_num)).2.2

/-- C6: the threat-level classification is exactly the fixed band mapping
on scores, and every real score is assigned exactly one of the five
levels. -/
theorem c6_threat_level_bands (s : ℝ) :
    (classifyThreatLevel s = "normal" ↔ s < 0.3)
    ∧ (classifyThreatLevel s = "low" ↔ 0.3 ≤ s ∧ s < 0.5)
    ∧ (classifyThreatLevel s = "medium" ↔ 0.5 ≤ s ∧ s < 0.7)
    ∧ (classifyThreatLevel s = "high" ↔ 0.7 ≤ s ∧ s < 0.9)
    ∧ (classifyThreatLevel s = "critical" ↔ 0.9 ≤ s)
    ∧ classifyThreatLevel s ∈ ["normal", "low", "medium", "high", "critical"] := by
  unfold classifyThreatLevel
  split_ifs with h1 h2 h3 h4 <;>
    refine ⟨?_, ?_, ?_, ?_, ?_, ?_⟩ <;>
    simp_all <;>
    intros <;>
    linarith

/-- C10 counterexample: when the internal pipeline fails,
`analyze_single_log` returns a result carrying the default values
`is_threat = false` and `anomaly_score = 0.0` (error-tagged), instead of
propagating the failure. -/
theorem c10_counterexample :
    (analyzeSingleLog (Except.error "boom") 0).isThreat = false
    ∧ (analyzeSingleLog (Except.error "boom") 0).anomalyScore = 0
    ∧ (analyzeSingleLog (Except.error "boom") 0).threatLevel = "error"
    ∧ (analyzeSingleLog (Except.error "boom") 0).error = some "boom" :=
  ⟨rfl, rfl, rfl, rfl⟩

/-- C10 amended: `analyze_single_log` does not propagate internal
failures: the caught-exception path returns an error-tagged result
(`threat_level = "error"`, `error` field set) that substitutes the
defaults `is_threat = false` and `anomaly_score = 0.0`; only the success
path is error-free and carries the reconstruction error. -/
theorem c10_failure_substitutes_defaults (e : String) (err thr : ℝ) :
    analyzeSingleLog (Except.error e) thr
      = { isThreat := false, threatLevel := "error", anomalyScore := 0,
          reconstructionError := none, threshold := none, confidence := none,
          error := some e }
    ∧ (analyzeSingleLog (Except.ok err) thr).error = none
    ∧ (analyzeSingleLog (Except.ok err) thr).reconstructionError = some err :=
  ⟨rfl, rfl, rfl⟩

/-- `StandardScaler` fitted state: per-column `mean_` and `var_`. -/
structure ScalerState where
  mean : List ℝ
  var : List ℝ

/-- `SelectKBest` fitted state: per-column `scores_` and the ascending
selected-column indices of `get_support(indices=True)`. -/
structure SelectorState where
  scores : List ℝ
  support : List ℕ

/-- Column `j` of a row-major matrix (`X[:, j]`). -/
noncomputable def colGet (X : List (List ℝ)) (j : ℕ) : List ℝ :=
  X.map fun r => r.getD j 0

noncomputable def colMean (X : List (List ℝ)) (j : ℕ) : ℝ :=
  listMean (colGet X j)

noncomputable def colVar (X : List (List ℝ)) (j : ℕ) : ℝ :=
  listMean ((colGet X j).map fun x => (x - colMean X j) ^ 2)

/-- Modelled from the spec: sklearn `f_classif` (an excluded collaborator
library, not part of this repository), the one-way-ANOVA F-value of
column `j` against the binary labels.  Real division by zero (Lean
convention `x / 0 = 0`) stands in for the NaN numpy produces when the
labels are all one class — in either semantics the computation completes
without raising. -/
noncomputable def fScore (X : List (List ℝ)) (y : List Bool) (j : ℕ) : ℝ :=
  let col := colGet X j
  let pairs := col.zip y
  let g1 := (pairs.filter fun p => p.2).map Prod.fst
  let g0 := (pairs.filter fun p => !p.2).map Prod.fst
  let k : ℕ := (if g0.length = 0 then 0 else 1) + (if g1.length = 0 then 0 else 1)
  let grand := listMean col
  let ssb := (g0.length : ℝ) * (listMean g0 - grand) ^ 2
    + (g1.length : ℝ) * (listMean g1 - grand) ^ 2
  let ssw := (g0.map fun x => (x - listMean g0) ^ 2).sum
    + (g1.map fun x => (x - listMean g1) ^ 2).sum
  (ssb / ((k : ℝ) - 1)) / (ssw / ((col.length : ℝ) - (k : ℝ)))

/-- Modelled from the spec: sklearn `SelectKBest.get_support` — the `k`
columns with the largest scores (stable argsort, take the last `k`),
reported as an ascending index list. -/
noncomputable def topKIndices (scores : List ℝ) (k : ℕ) : List ℕ :=
  let order := (List.range scores.length).insertionSort
    fun i j => scores.getD i 0 ≤ scores.getD j 0
  let chosen := order.drop (order.length - k)
  (List.range scores.length).filter fun i => decide (i ∈ chosen)

/-- Modelled from the spec: `SelectKBest(f_classif, k).fit(X, y)` scores
every column and fixes the selected-column support; it completes on every
label vector, including a degenerate one-class `y`. -/
noncomputable def selectorFit (X : List (List ℝ)) (y : List Bool) (k : ℕ) :
    SelectorState :=
  let scores := (List.range X.headI.length).map (fScore X y)
  { scores := scores, support := topKIndices scores k }

/-- Modelled from the spec: `SelectKBest.transform` keeps only the fitted
support columns; the fitted state is read, never written. -/
noncomputable def selectorTransform (st : SelectorState) (X : List (List ℝ)) :
    SelectorState × List (List ℝ) :=
  (st, X.map fun r => st.support.map fun j => r.getD j 0)

/-- Modelled from the spec: `StandardScaler.fit` computes per-column
`mean_` and (population) `var_`. -/
noncomputable def scalerFit (X : List (List ℝ)) : ScalerState :=
  { mean := (List.range X.headI.length).map (colMean X)
    var := (List.range X.headI.length).map (colVar X) }

/-- Modelled from the spec: `StandardScaler.transform` centers by the
fitted `mean_` and divides by `scale_ = sqrt(var_)`; the fitted state is
read, never written. -/
noncomputable def scalerTransform (st : ScalerState) (X : List (List ℝ)) :
    ScalerState × List (List ℝ) :=
  (st, X.map fun r => (List.range st.mean.length).map fun j =>
    (r.getD j 0 - st.mean.getD j 0) / Real.sqrt (st.var.getD j 0))

/-- The fittable state held by `CybersecurityFeatureExtractor`: the
feature selector, the scaler, the selected feature names, and the
`is_fitted` flag. -/
structure ExtractorState where
  selector : SelectorState
  scaler : ScalerState
  featureNames : List String
  isFitted : Bool

/-- The spec's DataQualityError taxonomy (ErrorKind) for this stage. -/
inductive ErrorKind where
  | emptyInput
  | degenerateLabelDistribution

/-- Embedding of the selection/scaling stage of
`CybersecurityFeatureExtractor.prepare_for_training`
(feature_extractor.py lines 236-252): if not yet fitted, fit the selector
on the training split and record the selected feature names; apply the
fitted selector to all three splits; refit the scaler on the selected
training split and apply it to all three splits.  The `Except ErrorKind`
result type carries the spec's error taxonomy; the source performs no
label validation before `feature_selector.fit`, and the fit itself
completes on every label vector, so no execution returns an error. -/
noncomputable def prepareForTraining (st : ExtractorState) (names : List String)
    (Xtr Xval Xte : List (List ℝ)) (ytr : List Bool) (k : ℕ) :
    Except ErrorKind
      (ExtractorState × List (List ℝ) × List (List ℝ) × List (List ℝ)) :=
  let sel := if st.isFitted then st.selector else selectorFit Xtr ytr k
  let fnames := if st.isFitted then st.featureNames
    else sel.support.map fun i => names.getD i ""
  let p1 := selectorTransform sel Xtr
  let p2 := selectorTransform p1.1 Xval
  let p3 := selectorTransform p2.1 Xte
  let sc := scalerFit p1.2
  let q1 := scalerTransform sc p1.2
  let q2 := scalerTransform q1.1 p2.2
  let q3 := scalerTransform q2.1 p3.2
  Except.ok ({ selector := p3.1, scaler := q3.1, featureNames := fnames,
               isFitted := true }, q1.2, q2.2, q3.2)

/-- C7: no-leakage frame condition.  Applying a fitted selector or scaler
transform returns the fitted state unchanged, and the fitted parameters
produced by `prepare_for_training` (selector scores and support, scaler
mean and variance, feature names) do not depend on the validation or
test splits — they are fitted on the training split only. -/
theorem c7_no_leakage_frame :
    (∀ (st : SelectorState) (X : List (List ℝ)), (selectorTransform st X).1 = st)
    ∧ (∀ (st : ScalerState) (X : List (List ℝ)), (scalerTransform st X).1 = st)
    ∧ (∀ (st : ExtractorState) (names : List String)
        (Xtr Xval Xval2 Xte Xte2 : List (List ℝ)) (ytr : List Bool) (k : ℕ),
        (prepareForTraining st names Xtr Xval Xte ytr k).toOption.map Prod.fst
          = (prepareForTraining st names Xtr Xval2 Xte2 ytr k).toOption.map
              Prod.fst) :=
  ⟨fun _ _ => rfl, fun _ _ => rfl,
   fun _ _ _ _ _ _ _ _ _ => rfl⟩

/-- C9 counterexample: on a concrete degenerate input whose training
labels are all one class, `prepare_for_training` does not fail with a
DegenerateLabelDistribution error — it returns a fitted extractor. -/
theorem c9_counterexample :
    prepareForTraining
        { selector := { scores := [], support := [] },
          scaler := { mean := [], var := [] },
          featureNames := [], isFitted := false }
        ["f0", "f1"] [[1, 2], [3, 4]] [[1, 2]] [[1, 2]] [true, true] 1
      ≠ Except.error ErrorKind.degenerateLabelDistribution := by
  simp [prepareForTraining]

/-- C9 amended: `prepare_for_training` performs no label-distribution
validation: for every input — in particular an all-one-class training
label vector — the selector fit completes without error (sklearn's
`f_classif` yields NaN scores and a warning, not an exception) and the
extractor is returned marked fitted. -/
theorem c9_fit_never_fails (st : ExtractorState) (names : List String)
    (Xtr Xval Xte : List (List ℝ)) (ytr : List Bool) (k : ℕ) :
    ∃ r, prepareForTraining st names Xtr Xval Xte ytr k = Except.ok r
      ∧ r.1.isFitted = true :=
  ⟨_, rfl, rfl⟩

end CTD
